import Mathlib

/-!
Verification development for the CertificateEditor repository.

The development shallowly embeds the coordinate-transform functions of
`src/components/PDFViewer.tsx`, the text-style and field data model of
`src/unnamed/part_000` (TextStyler) and `src/unnamed/part_001`
(CertificateEditor page), and the batch-rendering pipeline of
`handleProcessCertificates` in `src/unnamed/part_001`.

Numbers are modelled with `ℚ` (JavaScript numbers on the exercised inputs
are exact), row records as association lists from column name to the
stringified cell value, and the external pdf-lib calls via explicit
parameters: `widthOf` stands for `font.widthOfTextAtSize`, and a
`drawOk` predicate stands for the partiality of `page.drawText`
(which can throw on unencodable input). An output document is modelled
as its list of drawn texts layered over the untouched template bytes.
-/

namespace CertificateEditor

/-! ## Coordinate transformer, from src/components/PDFViewer.tsx -/

/-- Embedding of `getScalingRatio` (PDFViewer.tsx lines 100-103): returns 1
when `embedRect.width` or `pdfDimensions.width` is 0 (template not yet
measured), else `embedRect.width / pdfDimensions.width`. -/
def getScalingRatio (embedWidth pdfWidth : ℚ) : ℚ :=
  if embedWidth = 0 ∨ pdfWidth = 0 then 1 else embedWidth / pdfWidth

/-- Embedding of `pdfToDisplayCoords` (PDFViewer.tsx lines 128-137):
`(x * ratio, (pdfDimensions.height - y) * ratio)`. -/
def pdfToDisplayCoords (embedWidth pdfWidth pdfHeight x y : ℚ) : ℚ × ℚ :=
  let ratio := getScalingRatio embedWidth pdfWidth
  (x * ratio, (pdfHeight - y) * ratio)

/-- Embedding of `displayToPdfCoords` (PDFViewer.tsx lines 140-147):
`(x / ratio, pdfDimensions.height - y / ratio)`. -/
def displayToPdfCoords (embedWidth pdfWidth pdfHeight x y : ℚ) : ℚ × ℚ :=
  let ratio := getScalingRatio embedWidth pdfWidth
  (x / ratio, pdfHeight - y / ratio)

/-! ## Data model, from src/unnamed/part_000 (TextStyler) and part_001 -/

/-- Embedding of the `TextStyles` interface (part_000 lines 32-40): font
family, size, weight, slant, decoration, horizontal alignment, color. The
fields are in source order. -/
structure TextStyles where
  fontFamily : String
  fontSize : ℚ
  fontWeight : String
  fontStyle : String
  textDecoration : String
  textAlign : String
  color : String
deriving DecidableEq

/-- Embedding of `defaultStyles` (part_000 lines 42-50). -/
def defaultStyles : TextStyles :=
  ⟨"Arial", 16, "normal", "normal", "none", "left", "#000000"⟩

/-- Embedding of the field record of the editor state (part_001 lines
24-32): id, column name, display position, optional styles, optional
fine-tune offsets. -/
structure Field where
  id : String
  name : String
  x : ℚ
  y : ℚ
  styles : Option TextStyles
  pdfOffsetX : Option ℚ
  pdfOffsetY : Option ℚ
deriving DecidableEq

/-- One spreadsheet row: a record mapping column names to stringified cell
values, as produced by `XLSX.utils.sheet_to_json` (absent cells are absent
keys). -/
abbrev Row := List (String × String)

/-- JavaScript property access `rowData[name]`: the value of the first
binding of `name`, or undefined (`none`). -/
def lookupCol : Row → String → Option String
  | [], _ => none
  | (k, v) :: rest, colName => if k = colName then some v else lookupCol rest colName

/-- Embedding of `rowData[field.name] !== undefined ? String(rowData[field.name]) : ""`
(part_001 line 131). -/
def lookupValue (row : Row) (colName : String) : String :=
  match lookupCol row colName with
  | some v => v
  | none => ""

/-! ## Template renderer, from handleProcessCertificates (part_001 lines 101-223) -/

/-- The three standard fonts the renderer can embed (part_001 lines 157-165). -/
inductive StdFont where
  | TimesRoman : StdFont
  | Courier : StdFont
  | Helvetica : StdFont
deriving DecidableEq

/-- Embedding of the font resolution chain (part_001 lines 157-165):
`Times New Roman` maps to TimesRoman, `Courier New` to Courier, and
everything else (including absent styles) falls back to Helvetica. -/
def resolveFont (styles : Option TextStyles) : StdFont :=
  match styles with
  | some st =>
      if st.fontFamily = "Times New Roman" then StdFont.TimesRoman
      else if st.fontFamily = "Courier New" then StdFont.Courier
      else StdFont.Helvetica
  | none => StdFont.Helvetica

/-- Embedding of `field.styles?.fontSize || 16` (part_001 line 138): the
JavaScript `||` also replaces a zero size by 16. -/
def fontSizeOf : Option TextStyles → ℚ
  | some st => if st.fontSize = 0 then 16 else st.fontSize
  | none => 16

/-- Embedding of `field.styles?.textAlign || 'left'` (part_001 line 179):
the JavaScript `||` also replaces an empty string by `left`. -/
def alignOf : Option TextStyles → String
  | some st => if st.textAlign = "" then "left" else st.textAlign
  | none => "left"

/-- One color channel in the unit interval; `none` stands for the NaN a
failed `parseInt` produces. -/
structure RGBColor where
  r : Option ℚ
  g : Option ℚ
  b : Option ℚ
deriving DecidableEq

/-- Value of a single hexadecimal digit. -/
def hexVal (c : Char) : Option ℕ :=
  if '0' ≤ c ∧ c ≤ '9' then some (c.toNat - '0'.toNat)
  else if 'a' ≤ c ∧ c ≤ 'f' then some (c.toNat - 'a'.toNat + 10)
  else if 'A' ≤ c ∧ c ≤ 'F' then some (c.toNat - 'A'.toNat + 10)
  else none

/-- Model of JavaScript `parseInt(s, 16)` on inputs without sign,
whitespace or `0x` markers: parse the longest hexadecimal prefix, `none`
(NaN) when there is none. -/
def parseIntHex (s : String) : Option ℕ :=
  let ds := s.data.takeWhile (fun c => (hexVal c).isSome)
  if ds.isEmpty then none
  else some (ds.foldl (fun a c => 16 * a + (hexVal c).getD 0) 0)

/-- Removal of the first occurrence of a character, for
`color.replace('#', '')` (part_001 line 170). -/
def removeFirst (c : Char) : List Char → List Char
  | [] => []
  | d :: ds => if d = c then ds else d :: removeFirst c ds

/-- Embedding of `field.styles.color.replace('#', '')`. -/
def stripHash (s : String) : String := String.mk (removeFirst '#' s.data)

/-- One channel of the hex color: `parseInt(hex.substring(i, i+2), 16) / 255`
(part_001 lines 172-174). -/
def channel (hex : String) (i : ℕ) : Option ℚ :=
  (parseIntHex ((hex.drop i).take 2)).map (fun n => (n : ℚ) / 255)

/-- Embedding of the color parsing block (part_001 lines 167-176): default
black, replaced by the parsed hex channels when `field.styles?.color` is
truthy. -/
def parseColor : Option TextStyles → RGBColor
  | some st =>
      if st.color = "" then ⟨some 0, some 0, some 0⟩
      else
        let hex := stripHash st.color
        ⟨channel hex 0, channel hex 2, channel hex 4⟩
  | none => ⟨some 0, some 0, some 0⟩

/-- Embedding of the `textOptions` record passed to `drawText`
(part_001 lines 180-186). -/
structure TextOptions where
  x : ℚ
  y : ℚ
  size : ℚ
  font : StdFont
  color : RGBColor
deriving DecidableEq

/-- Embedding of the per-field body of the render loop (part_001 lines
129-198), parameterized by the pdf-lib text measure `widthOf`
(`font.widthOfTextAtSize`). Returns `none` when the field is skipped
(empty or absent value, line 134), else the drawn text and its options:
`adjustedX = field.x + (field.pdfOffsetX || 0)`,
`adjustedY = height - field.y + (field.pdfOffsetY || 0) - 50`, and the
alignment shift of lines 189-195 applied to X. -/
def drawnFor (widthOf : StdFont → String → ℚ → ℚ) (height : ℚ) (row : Row)
    (field : Field) : Option (String × TextOptions) :=
  let value := lookupValue row field.name
  if value = "" then none
  else
    let fontSize := fontSizeOf field.styles
    let adjustedX := field.x + field.pdfOffsetX.getD 0
    let adjustedY := height - field.y + field.pdfOffsetY.getD 0 - 50
    let font := resolveFont field.styles
    let textAlignment := alignOf field.styles
    let x :=
      if textAlignment = "center" then adjustedX - widthOf font value fontSize / 2
      else if textAlignment = "right" then adjustedX - widthOf font value fontSize
      else adjustedX
    some (value, ⟨x, adjustedY, fontSize, font, parseColor field.styles⟩)

/-- The uploaded template: first-page dimensions in PDF points, plus
whether `PDFDocument.load` succeeds on its bytes (pdf-lib is external; a
corrupt buffer throws). -/
structure Template where
  width : ℚ
  height : ℚ
  loadOk : Bool
deriving DecidableEq

/-- Embedding of the inner `for (const field of fields)` loop (part_001
lines 129-199): fields are drawn in order onto the fresh document;
`drawOk` models the partiality of the external `page.drawText`, whose
exception propagates out of the loop. -/
def renderFields (drawOk : String → Bool) (widthOf : StdFont → String → ℚ → ℚ)
    (height : ℚ) (row : Row) : List Field → Except String (List (String × TextOptions))
  | [] => Except.ok []
  | field :: rest =>
      match drawnFor widthOf height row field with
      | none => renderFields drawOk widthOf height row rest
      | some d =>
          if drawOk d.1 then
            (renderFields drawOk widthOf height row rest).map (fun ds => d :: ds)
          else Except.error "drawText threw"

/-- Rendering of one row (part_001 lines 122-202): load a fresh document
from the template bytes (can throw), then draw every field of this row
onto it. The result is the overlay of drawn texts for this row alone. -/
def renderRow (drawOk : String → Bool) (widthOf : StdFont → String → ℚ → ℚ)
    (tpl : Template) (fields : List Field) (row : Row) :
    Except String (List (String × TextOptions)) :=
  if tpl.loadOk then renderFields drawOk widthOf tpl.height row fields
  else Except.error "PDFDocument.load threw"

/-- One entry added to the ZIP: file name and the drawn-text overlay of
that output document (the template bytes themselves are shared and
untouched). -/
structure OutputFile where
  name : String
  drawn : List (String × TextOptions)
deriving DecidableEq

/-- Embedding of the file naming of part_001 line 205. -/
def certName (i : ℕ) : String := "certificate_" ++ toString (i + 1) ++ ".pdf"

/-- Embedding of the row loop (part_001 lines 119-207) as it behaves
inside the single surrounding `try`: rows are processed sequentially and
the first exception aborts everything after it. -/
def processRows (drawOk : String → Bool) (widthOf : StdFont → String → ℚ → ℚ)
    (tpl : Template) (fields : List Field) :
    List Row → ℕ → Except String (List OutputFile)
  | [], _ => Except.ok []
  | row :: rest, i =>
      match renderRow drawOk widthOf tpl fields row with
      | Except.error e => Except.error e
      | Except.ok ds =>
          match processRows drawOk widthOf tpl fields rest (i + 1) with
          | Except.error e => Except.error e
          | Except.ok files => Except.ok (⟨certName i, ds⟩ :: files)

/-- Outcome of one invocation of `handleProcessCertificates`:
`configError` is the guard toast of lines 102-105, `processError` the
catch branch of lines 217-219 (a single aggregate error, `saveAs` never
runs), and `success` the generated archive entries. -/
inductive BatchResult where
  | configError : BatchResult
  | processError : BatchResult
  | success : List OutputFile → BatchResult
deriving DecidableEq

/-- Files delivered to the user by a batch outcome: only a `success`
reaches `zip.generateAsync` and `saveAs`. -/
def BatchResult.outputFiles : BatchResult → List OutputFile
  | BatchResult.success files => files
  | _ => []

/-- Embedding of `handleProcessCertificates` (part_001 lines 101-223):
the up-front guard `!pdfFile || !excelData.length || !fields.length`,
then the row loop inside one `try`, whose first exception yields the
single catch-branch error with no saved output. -/
def handleProcessCertificates (drawOk : String → Bool)
    (widthOf : StdFont → String → ℚ → ℚ) (pdfFile : Option Template)
    (excelData : List Row) (fields : List Field) : BatchResult :=
  match pdfFile with
  | none => BatchResult.configError
  | some tpl =>
      if excelData = [] ∨ fields = [] then BatchResult.configError
      else
        match processRows drawOk widthOf tpl fields excelData 0 with
        | Except.ok files => BatchResult.success files
        | Except.error _ => BatchResult.processError

/-! ## Editor session state, from part_001 lines 22-99 -/

/-- The parsed result of a successful spreadsheet read (part_001 lines
54-58): row records and header names. -/
structure ParsedSheet where
  jsonData : List Row
  headers : List String
deriving DecidableEq

/-- The `useState` session of the CertificateEditor component (part_001
lines 22-37): template file, spreadsheet file, rows, headers, selected
columns, styling selection, and placed fields. -/
structure EditorState where
  pdfFile : Option Template
  excelFile : Option String
  excelData : List Row
  availableFields : List String
  selectedFields : List String
  selectedField : Option String
  fields : List Field
deriving DecidableEq

/-- Embedding of `handlePDFUpload` (part_001 lines 39-43): it only calls
`setPdfFile`; every other piece of state, the placed fields included, is
left as it was. -/
def handlePDFUpload (s : EditorState) (file : Template) : EditorState :=
  ⟨some file, s.excelFile, s.excelData, s.availableFields, s.selectedFields,
    s.selectedField, s.fields⟩

/-- Embedding of the successful path of `handleExcelUpload` (part_001
lines 45-71): `setExcelFile`, then on parse success `setExcelData`,
`setAvailableFields`, `setSelectedFields([])` and `setFields([])`. -/
def handleExcelUpload (s : EditorState) (fileMark : String)
    (parsed : ParsedSheet) : EditorState :=
  ⟨s.pdfFile, some fileMark, parsed.jsonData, parsed.headers, [],
    s.selectedField, []⟩

/-! ## Render-relevant equivalence of field sets, for the style-independence claim -/

/-- Agreement of two optional style records on exactly the properties the
renderer reads: font family, font size, alignment, color. Weight, slant
and decoration are unconstrained. -/
def stylesRenderEq : Option TextStyles → Option TextStyles → Prop
  | none, none => True
  | some s, some t =>
      s.fontFamily = t.fontFamily ∧ s.fontSize = t.fontSize ∧
      s.textAlign = t.textAlign ∧ s.color = t.color
  | _, _ => False

/-- Two fields that differ at most in fontWeight, fontStyle and
textDecoration. -/
def fieldRenderEq (f g : Field) : Prop :=
  f.id = g.id ∧ f.name = g.name ∧ f.x = g.x ∧ f.y = g.y ∧
  f.pdfOffsetX = g.pdfOffsetX ∧ f.pdfOffsetY = g.pdfOffsetY ∧
  stylesRenderEq f.styles g.styles

/-! ## Concrete instances used by the scenario evaluations -/

/-- External draw that always succeeds. -/
def allDraws : String → Bool := fun _ => true

/-- External draw that throws exactly on the text of the first row of the
failure scenario. -/
def failAlice : String → Bool := fun s => s != "Alice"

/-- Degenerate text measure. -/
def zeroWidth : StdFont → String → ℚ → ℚ := fun _ _ _ => 0

/-- Text measure giving the scenario width of 28 units. -/
def width28 : StdFont → String → ℚ → ℚ := fun _ _ _ => 28

/-- US-Letter template whose bytes parse. -/
def c1Template : Template := ⟨612, 792, true⟩

/-- A4 template used as the re-uploaded file. -/
def a4Template : Template := ⟨595, 842, true⟩

/-- The scenario field `Name` at position (100, 100), unstyled. -/
def c1Field : Field := ⟨"field-Name", "Name", 100, 100, none, none, none⟩

/-- Styles of the right-alignment scenario; the empty color string is
falsy, so the renderer keeps the default black. -/
def c6Styles : TextStyles := ⟨"Arial", 16, "normal", "normal", "none", "right", ""⟩

/-- The right-aligned scenario field at X = 300. -/
def c6Field : Field := ⟨"field-Name", "Name", 300, 100, some c6Styles, none, none⟩

/-- A field naming a column absent from the scenario rows. -/
def missingField : Field := ⟨"field-Missing", "Missing", 10, 20, none, none, none⟩

/-- Styles with every toggle of the styling toolbar active. -/
def boldStyles : TextStyles := ⟨"Arial", 16, "bold", "italic", "underline", "left", "#000000"⟩

/-- The same styles with all three toggles off. -/
def plainStyles : TextStyles := ⟨"Arial", 16, "normal", "normal", "none", "left", "#000000"⟩

/-- The scenario field styled with the toggles on. -/
def boldField : Field := ⟨"field-Name", "Name", 100, 100, some boldStyles, none, none⟩

/-- The scenario field styled with the toggles off. -/
def plainField : Field := ⟨"field-Name", "Name", 100, 100, some plainStyles, none, none⟩

/-- Scenario row binding Name to Alice. -/
def rowAlice : Row := [("Name", "Alice")]

/-- Scenario row binding Name to Bob. -/
def rowBob : Row := [("Name", "Bob")]

/-- Default black with all channels parsed. -/
def blackColor : RGBColor := ⟨some 0, some 0, some 0⟩

/-- Options the code computes for the unstyled scenario field on a
792-point page: X = 100, Y = 792 - 100 - 50 = 642, size 16, Helvetica. -/
def drawnOpts : TextOptions := ⟨100, 642, 16, StdFont.Helvetica, blackColor⟩

/-- Options the code computes for the right-aligned scenario field:
X = 300 - 28 = 272. -/
def c6Opts : TextOptions := ⟨272, 642, 16, StdFont.Helvetica, blackColor⟩

/-- First archive entry of the two-row scenario. -/
def certFileOne : OutputFile := ⟨"certificate_1.pdf", [("Alice", drawnOpts)]⟩

/-- Second archive entry of the two-row scenario. -/
def certFileTwo : OutputFile := ⟨"certificate_2.pdf", [("Bob", drawnOpts)]⟩

/-- An editor session holding a template, a parsed sheet and one placed
field, about to receive a re-upload. -/
def c9State : EditorState :=
  ⟨some c1Template, some "attendees.xlsx", [rowAlice], ["Name"], ["Name"], none, [c1Field]⟩

/-! ## Helper lemmas -/

theorem getScalingRatio_ne_zero (embedWidth pdfWidth : ℚ) :
    getScalingRatio embedWidth pdfWidth ≠ 0 := by
  unfold getScalingRatio
  split
  · norm_num
  · rename_i h
    push_neg at h
    exact div_ne_zero h.1 h.2

theorem certName_one : certName 0 = "certificate_1.pdf" := rfl

theorem certName_two : certName 1 = "certificate_2.pdf" := rfl

theorem lookupCol_of_ne_empty {row : Row} {colName : String}
    (h : lookupValue row colName ≠ "") :
    lookupCol row colName = some (lookupValue row colName) := by
  cases hc : lookupCol row colName with
  | none => exact absurd (by simp [ lookupValue, hc]) h
  | some v => simp [ lookupValue, hc]

theorem drawnFor_value {widthOf : StdFont → String → ℚ → ℚ} {height : ℚ} {row : Row}
    {field : Field} {v : String} {opts : TextOptions}
    (h : drawnFor widthOf height row field = some (v, opts)) :
    lookupCol row field.name = some v := by
  simp only [drawnFor] at h
  split at h
  · exact Option.noConfusion h
  · rename_i hv
    injection h with h1
    have h2 : lookupValue row field.name = v := congrArg Prod.fst h1
    rw [← h2]
    exact lookupCol_of_ne_empty hv

theorem renderFields_ok_mem {drawOk : String → Bool} {widthOf : StdFont → String → ℚ → ℚ}
    {height : ℚ} {row : Row} :
    ∀ {fields : List Field} {ds : List (String × TextOptions)},
      renderFields drawOk widthOf height row fields = Except.ok ds →
      ∀ d ∈ ds, ∃ f ∈ fields, drawnFor widthOf height row f = some d := by
  intro fields
  induction fields with
  | nil =>
      intro ds h d hd
      simp only [renderFields, Except.ok.injEq] at h
      subst h
      cases hd
  | cons f fs ih =>
      intro ds h d hd
      cases hdf : drawnFor widthOf height row f with
      | none =>
          simp only [renderFields, hdf] at h
          obtain ⟨g, hg, hdg⟩ := ih h d hd
          exact ⟨g, List.mem_cons_of_mem f hg, hdg⟩
      | some d0 =>
          simp only [renderFields, hdf] at h
          by_cases hok : drawOk d0.1
          · rw [if_pos hok] at h
            cases hrest : renderFields drawOk widthOf height row fs with
            | error e =>
                rw [hrest] at h
                exact Except.noConfusion h
            | ok rest =>
                rw [hrest] at h
                simp only [Except.map, Except.ok.injEq] at h
                subst h
                rcases List.mem_cons.mp hd with hd | hd
                · exact ⟨f, List.mem_cons_self f fs, by rw [hdf, hd]⟩
                · obtain ⟨g, hg, hdg⟩ := ih hrest d hd
                  exact ⟨g, List.mem_cons_of_mem f hg, hdg⟩
          · rw [if_neg hok] at h
            exact Except.noConfusion h

theorem processRows_ok_get {drawOk : String → Bool} {widthOf : StdFont → String → ℚ → ℚ}
    {tpl : Template} {fields : List Field} :
    ∀ {rows : List Row} {i : ℕ} {files : List OutputFile},
      processRows drawOk widthOf tpl fields rows i = Except.ok files →
      ∀ j file, files.get? j = some file →
        ∃ row, rows.get? j = some row ∧
          ∃ ds, renderRow drawOk widthOf tpl fields row = Except.ok ds ∧
            file = ⟨certName (i + j), ds⟩ := by
  intro rows
  induction rows with
  | nil =>
      intro i files h j file hj
      simp only [processRows, Except.ok.injEq] at h
      subst h
      simp at hj
  | cons row rest ih =>
      intro i files h j file hj
      cases hr : renderRow drawOk widthOf tpl fields row with
      | error e =>
          simp only [processRows, hr] at h
          exact Except.noConfusion h
      | ok ds =>
          cases hp : processRows drawOk widthOf tpl fields rest (i + 1) with
          | error e =>
              simp only [processRows, hr, hp] at h
              exact Except.noConfusion h
          | ok fs =>
              simp only [processRows, hr, hp, Except.ok.injEq] at h
              subst h
              cases j with
              | zero =>
                  simp only [List.get?] at hj
                  injection hj with hj
                  subst hj
                  exact ⟨row, rfl, ds, hr, by rw [Nat.add_zero]⟩
              | succ j =>
                  simp only [List.get?] at hj
                  obtain ⟨row2, hrow2, ds2, hds2, hfile⟩ := ih hp j file hj
                  refine ⟨row2, ?_, ds2, hds2, ?_⟩
                  · simpa using hrow2
                  · rw [hfile]
                    have hidx : i + 1 + j = i + (j + 1) := by omega
                    rw [hidx]

theorem processRows_error_of_mem {drawOk : String → Bool} {widthOf : StdFont → String → ℚ → ℚ}
    {tpl : Template} {fields : List Field} {row : Row} {e : String} :
    ∀ {rows : List Row} (i : ℕ), row ∈ rows →
      renderRow drawOk widthOf tpl fields row = Except.error e →
      ∃ e2, processRows drawOk widthOf tpl fields rows i = Except.error e2 := by
  intro rows
  induction rows with
  | nil =>
      intro i hmem
      cases hmem
  | cons r rest ih =>
      intro i hmem hfail
      rcases List.mem_cons.mp hmem with hm | hm
      · subst hm
        exact ⟨e, by simp only [processRows, hfail]⟩
      · cases hr : renderRow drawOk widthOf tpl fields r with
        | error e3 => exact ⟨e3, by simp only [processRows, hr]⟩
        | ok ds =>
            obtain ⟨e2, hp⟩ := ih (i + 1) hm hfail
            exact ⟨e2, by simp only [processRows, hr, hp]⟩

theorem renderFields_skip {drawOk : String → Bool} {widthOf : StdFont → String → ℚ → ℚ}
    {height : ℚ} {row : Row} {field : Field}
    (hnone : drawnFor widthOf height row field = none) :
    ∀ (before after : List Field),
      renderFields drawOk widthOf height row (before ++ field :: after)
        = renderFields drawOk widthOf height row (before ++ after) := by
  intro before
  induction before with
  | nil =>
      intro after
      simp only [List.nil_append, renderFields, hnone]
  | cons g gs ih =>
      intro after
      simp only [List.cons_append]
      cases hdg : drawnFor widthOf height row g with
      | none => simp only [renderFields, hdg, ih after]
      | some d => simp only [renderFields, hdg, ih after]

/-! ## Claim theorems -/

/-- Claim C1: on the scenario template (first page 792 points tall), one
field `Name` at position (100, 100) and rows Alice and Bob, the batch
produces exactly the two files certificate_1.pdf (Alice drawn, no Bob) and
certificate_2.pdf (Bob drawn, no Alice) — but the code draws at
`adjustedY = height - baseY + pdfOffsetY - 50 = 642`, not at the
`792 - 100 = 692` the claim states: the extra constant `-50` of part_001
line 154 contradicts the transform of section 4.1 of the specification,
whose design notes flag this constant subtraction as a defect of the
source. -/
theorem scenario_y_offset_bug :
    handleProcessCertificates allDraws zeroWidth (some c1Template) [rowAlice, rowBob] [c1Field]
      = BatchResult.success [certFileOne, certFileTwo] ∧
    certFileOne.drawn = [("Alice", drawnOpts)] ∧
    certFileTwo.drawn = [("Bob", drawnOpts)] ∧
    drawnOpts.y = 642 ∧ (642 : ℚ) = 792 - 100 - 50 ∧ (642 : ℚ) ≠ 792 - 100 := by
  refine ⟨?_, rfl, rfl, rfl, by norm_num, by norm_num⟩
  have h : handleProcessCertificates allDraws zeroWidth (some c1Template) [rowAlice, rowBob] [c1Field]
      = BatchResult.success
          [⟨certName 0, [("Alice", ⟨100 + 0, 792 - 100 + 0 - 50, 16, StdFont.Helvetica, blackColor⟩)]⟩,
           ⟨certName 1, [("Bob", ⟨100 + 0, 792 - 100 + 0 - 50, 16, StdFont.Helvetica, blackColor⟩)]⟩] := rfl
  rw [h, certName_one, certName_two]
  norm_num [ certFileOne, certFileTwo, drawnOpts]

/-- Claim C3: a value drawn into one output of a successful batch can only
come from that output's own row, because every row is rendered onto a
document freshly loaded from the template bytes. In the contrapositive
form stated here: a text `v` that is not a value of row B (for any of the
placed fields) never appears among the drawn texts of row B's output —
in particular the field values drawn for a different row A never leak
into B's output. -/
theorem row_isolation (drawOk : String → Bool) (widthOf : StdFont → String → ℚ → ℚ)
    (tpl : Template) (fields : List Field) (rows : List Row) (files : List OutputFile)
    (j : ℕ) (rowB : Row) (file : OutputFile) (v : String)
    (hb : handleProcessCertificates drawOk widthOf (some tpl) rows fields
            = BatchResult.success files)
    (hfile : files.get? j = some file)
    (hrow : rows.get? j = some rowB)
    (hdist : ∀ f ∈ fields, lookupCol rowB f.name ≠ some v) :
    ∀ opts : TextOptions, (v, opts) ∉ file.drawn := by
  intro opts hmem
  simp only [handleProcessCertificates] at hb
  split at hb
  · exact BatchResult.noConfusion hb
  · cases hp : processRows drawOk widthOf tpl fields rows 0 with
    | error e =>
        rw [hp] at hb
        exact BatchResult.noConfusion hb
    | ok files0 =>
        rw [hp] at hb
        injection hb with hb
        subst hb
        obtain ⟨row2, hrow2, ds, hds, hfileEq⟩ := processRows_ok_get hp j file hfile
        rw [hrow] at hrow2
        injection hrow2 with hrow2
        subst hrow2
        unfold renderRow at hds
        split at hds
        · have hmem2 : (v, opts) ∈ ds := by
            rw [hfileEq] at hmem
            exact hmem
          obtain ⟨f, hf, hdf⟩ := renderFields_ok_mem hds (v, opts) hmem2
          exact hdist f hf (drawnFor_value hdf)
        · exact Except.noConfusion hds

/-- Claim C3 witness: in the Alice/Bob scenario batch, the value Alice
drawn for row 1 is absent from certificate_2.pdf. -/
theorem row_isolation_witness : ("Alice", drawnOpts) ∉ certFileTwo.drawn := by
  have hb : handleProcessCertificates allDraws zeroWidth (some c1Template) [rowAlice, rowBob] [c1Field]
      = BatchResult.success [certFileOne, certFileTwo] := by
    have h : handleProcessCertificates allDraws zeroWidth (some c1Template) [rowAlice, rowBob] [c1Field]
        = BatchResult.success
            [⟨certName 0, [("Alice", ⟨100 + 0, 792 - 100 + 0 - 50, 16, StdFont.Helvetica, blackColor⟩)]⟩,
             ⟨certName 1, [("Bob", ⟨100 + 0, 792 - 100 + 0 - 50, 16, StdFont.Helvetica, blackColor⟩)]⟩] := rfl
    rw [h, certName_one, certName_two]
    norm_num [ certFileOne, certFileTwo, drawnOpts]
  refine row_isolation allDraws zeroWidth c1Template [c1Field] [rowAlice, rowBob]
    [certFileOne, certFileTwo] 1 rowBob certFileTwo "Alice" hb rfl rfl ?_ drawnOpts
  intro f hf
  rw [List.mem_singleton] at hf
  subst hf
  decide

/-- Claim C2: for every point `(x, y)` and every configuration of the
viewer, converting a PDF-space point to display space and back returns the
original point. The scale ratio produced by `getScalingRatio` is never
zero, so the statement needs no hypothesis, and over `ℚ` the round trip is
exact, which in particular is within the 1e-6 tolerance the claim allows. -/
theorem roundtrip_display_pdf (embedWidth pdfWidth pdfHeight x y : ℚ) :
    displayToPdfCoords embedWidth pdfWidth pdfHeight
      (pdfToDisplayCoords embedWidth pdfWidth pdfHeight x y).1
      (pdfToDisplayCoords embedWidth pdfWidth pdfHeight x y).2 = (x, y) := by
  have hr := getScalingRatio_ne_zero embedWidth pdfWidth
  simp only [displayToPdfCoords, pdfToDisplayCoords]
  rw [Prod.mk.injEq]
  constructor
  · exact mul_div_cancel_right₀ x hr
  · rw [mul_div_cancel_right₀ _ hr]
    ring

/-- Claim C8, counterexample: in the unmeasured state (both embed and PDF
dimensions still 0, as initialised in the component), the conversion does
not pass Y through: `pdfToDisplayCoords` sends `y = 100` to
`(0 - 100) * 1 = -100`, not `100`. -/
theorem unmeasured_y_not_passed_through :
    (pdfToDisplayCoords 0 0 0 100 100).2 ≠ 100 := by
  norm_num [ pdfToDisplayCoords, getScalingRatio]

/-- Claim C8, amended: when the template is not yet measured (embed width
or PDF width is 0), `getScalingRatio` defaults to 1, so both conversion
functions are the identity on X and apply only the unscaled Y inversion
`y ↦ pageHeight - y`; with the unmeasured page height of 0 this sends Y to
`-Y` rather than passing it through. -/
theorem unmeasured_conversions (embedWidth pdfWidth pdfHeight x y : ℚ)
    (h : embedWidth = 0 ∨ pdfWidth = 0) :
    pdfToDisplayCoords embedWidth pdfWidth pdfHeight x y = (x, pdfHeight - y) ∧
    displayToPdfCoords embedWidth pdfWidth pdfHeight x y = (x, pdfHeight - y) := by
  have hr : getScalingRatio embedWidth pdfWidth = 1 := by
    unfold getScalingRatio
    rw [if_pos h]
  constructor
  · simp only [pdfToDisplayCoords, hr, mul_one]
  · simp only [displayToPdfCoords, hr, div_one]

/-- Claim C8 witness: instantiating the amended statement at the state
where the embed is unmeasured but the page is US Letter. -/
theorem unmeasured_conversions_witness :
    pdfToDisplayCoords 0 612 792 3 100 = (3, 692) ∧
    displayToPdfCoords 0 612 792 3 100 = (3, 692) := by
  have h := unmeasured_conversions 0 612 792 3 100 (Or.inl rfl)
  norm_num at h ⊢
  exact h

/-- Claim C4, counterexample: the whole row loop sits inside one
`try`/`catch` (part_001 lines 107-222), so a failure on one row aborts the
entire batch. Here drawing the first row's text Alice throws; the batch
ends in the single catch-branch error with zero output files, although the
second row on its own renders fine — refuting the claim that per-row
failures are collected while successfully rendered rows continue to
accumulate (certificate_2.pdf is never produced). -/
theorem single_failure_aborts_scenario :
    handleProcessCertificates failAlice zeroWidth (some c1Template) [rowAlice, rowBob] [c1Field]
      = BatchResult.processError ∧
    (handleProcessCertificates failAlice zeroWidth
        (some c1Template) [rowAlice, rowBob] [c1Field]).outputFiles = [] ∧
    renderRow failAlice zeroWidth c1Template [c1Field] rowBob
      = Except.ok [("Bob", drawnOpts)] := by
  refine ⟨rfl, rfl, ?_⟩
  have h : renderRow failAlice zeroWidth c1Template [c1Field] rowBob
      = Except.ok [("Bob", ⟨100 + 0, 792 - 100 + 0 - 50, 16, StdFont.Helvetica, blackColor⟩)] := rfl
  rw [h]
  norm_num [ drawnOpts]

/-- Claim C4, amended: a failure while rendering any row aborts the whole
batch. The single try/catch reports one aggregate error (the catch toast),
per-row failures are not collected, and no output file at all is
delivered — successes of other rows do not accumulate. -/
theorem failure_aborts_batch (drawOk : String → Bool) (widthOf : StdFont → String → ℚ → ℚ)
    (tpl : Template) (fields : List Field) (rows : List Row) (row : Row) (e : String)
    (hfields : fields ≠ [])
    (hmem : row ∈ rows)
    (hfail : renderRow drawOk widthOf tpl fields row = Except.error e) :
    handleProcessCertificates drawOk widthOf (some tpl) rows fields = BatchResult.processError ∧
    (handleProcessCertificates drawOk widthOf (some tpl) rows fields).outputFiles = [] := by
  have hrows : rows ≠ [] := List.ne_nil_of_mem hmem
  obtain ⟨e2, hp⟩ := processRows_error_of_mem 0 hmem hfail
  have hmain : handleProcessCertificates drawOk widthOf (some tpl) rows fields
      = BatchResult.processError := by
    simp only [handleProcessCertificates]
    rw [if_neg (by simp [hrows, hfields]), hp]
  refine ⟨hmain, ?_⟩
  rw [hmain]
  rfl

/-- Claim C4 witness: the amended statement applied to the scenario where
drawing Alice in the first row throws. -/
theorem failure_aborts_batch_witness :
    handleProcessCertificates failAlice zeroWidth (some c1Template) [rowAlice, rowBob] [c1Field]
      = BatchResult.processError := by
  have hfail : renderRow failAlice zeroWidth c1Template [c1Field] rowAlice
      = Except.error "drawText threw" := rfl
  exact (failure_aborts_batch failAlice zeroWidth c1Template [c1Field] [rowAlice, rowBob]
    rowAlice "drawText threw" (by simp) (List.mem_cons_self rowAlice [rowBob]) hfail).1

/-- Claim C5: invoking the batch with no template, or an empty row set, or
an empty field set, is rejected by the up-front guard of part_001 lines
102-105 with the configuration error, before any row is processed, and
delivers zero output files. -/
theorem config_rejection (drawOk : String → Bool) (widthOf : StdFont → String → ℚ → ℚ)
    (pdfFile : Option Template) (rows : List Row) (fields : List Field)
    (h : pdfFile = none ∨ rows = [] ∨ fields = []) :
    handleProcessCertificates drawOk widthOf pdfFile rows fields = BatchResult.configError ∧
    (handleProcessCertificates drawOk widthOf pdfFile rows fields).outputFiles = [] := by
  have hmain : handleProcessCertificates drawOk widthOf pdfFile rows fields
      = BatchResult.configError := by
    rcases h with h | h
    · rw [h]
      rfl
    · cases pdfFile with
      | none => rfl
      | some tpl =>
          simp only [handleProcessCertificates]
          rw [if_pos h]
  refine ⟨hmain, ?_⟩
  rw [hmain]
  rfl

/-- Claim C5 witness: a batch invoked with no template loaded. -/
theorem config_rejection_witness :
    handleProcessCertificates allDraws zeroWidth none [rowAlice] [c1Field]
      = BatchResult.configError ∧
    (handleProcessCertificates allDraws zeroWidth none [rowAlice] [c1Field]).outputFiles = [] :=
  config_rejection allDraws zeroWidth none [rowAlice] [c1Field] (Or.inl rfl)

/-- Claim C6: whenever a field is drawn, its final X origin is the
transformed X (`field.x` plus the fine-tune offset) shifted left by half
the measured width for center alignment, by the full measured width for
right alignment, and not at all otherwise — the width always being
measured by `widthOf` at the actually resolved font and the effective
font size. -/
theorem alignment_shift (widthOf : StdFont → String → ℚ → ℚ) (height : ℚ) (row : Row)
    (field : Field) (v : String) (opts : TextOptions)
    (h : drawnFor widthOf height row field = some (v, opts)) :
    (alignOf field.styles = "center" →
        opts.x = field.x + field.pdfOffsetX.getD 0
          - widthOf (resolveFont field.styles) v (fontSizeOf field.styles) / 2) ∧
    (alignOf field.styles = "right" →
        opts.x = field.x + field.pdfOffsetX.getD 0
          - widthOf (resolveFont field.styles) v (fontSizeOf field.styles)) ∧
    (alignOf field.styles ≠ "center" → alignOf field.styles ≠ "right" →
        opts.x = field.x + field.pdfOffsetX.getD 0) := by
  simp only [drawnFor] at h
  split at h
  · exact Option.noConfusion h
  · injection h with h1
    rw [Prod.mk.injEq] at h1
    obtain ⟨h2, h3⟩ := h1
    subst h2
    subst h3
    refine ⟨?_, ?_, ?_⟩
    · intro hc
      rw [hc]
      simp
    · intro hc
      rw [hc]
      simp
    · intro hc1 hc2
      dsimp only
      rw [if_neg hc1, if_neg hc2]

/-- Claim C6 witness: the right-aligned scenario field with transformed
origin X = 300 and measured width 28 is drawn at X = 272. -/
theorem alignment_shift_witness :
    drawnFor width28 792 rowBob c6Field = some ("Bob", c6Opts) ∧
    c6Opts.x = 272 ∧ (272 : ℚ) = 300 - 28 := by
  have hd : drawnFor width28 792 rowBob c6Field = some ("Bob", c6Opts) := by
    have h0 : drawnFor width28 792 rowBob c6Field
        = some ("Bob", ⟨300 + 0 - 28, 792 - 100 + 0 - 50, 16, StdFont.Helvetica,
            ⟨some 0, some 0, some 0⟩⟩) := rfl
    rw [h0]
    norm_num [ c6Opts, blackColor]
  have hx := (alignment_shift width28 792 rowBob c6Field "Bob" c6Opts hd).2.1 rfl
  refine ⟨hd, ?_, by norm_num⟩
  rw [hx]
  norm_num [ c6Field, width28]

/-- Claim C7: a field whose column is absent from the row, or bound to the
empty string, is skipped entirely: nothing is drawn for it, no error is
raised, and the rest of the row renders exactly as if the field were not
there. -/
theorem empty_value_skip (drawOk : String → Bool) (widthOf : StdFont → String → ℚ → ℚ)
    (tpl : Template) (row : Row) (field : Field) (before after : List Field)
    (h : lookupCol row field.name = none ∨ lookupCol row field.name = some "") :
    drawnFor widthOf tpl.height row field = none ∧
    renderRow drawOk widthOf tpl (before ++ field :: after) row
      = renderRow drawOk widthOf tpl (before ++ after) row := by
  have hval : lookupValue row field.name = "" := by
    rcases h with h | h <;> simp [ lookupValue, h]
  have hnone : drawnFor widthOf tpl.height row field = none := by
    simp only [drawnFor]
    rw [if_pos hval]
  refine ⟨hnone, ?_⟩
  unfold renderRow
  split
  · exact renderFields_skip hnone before after
  · rfl

/-- Claim C7 witness: the scenario row for Bob has no Missing column, so
the field bound to it is skipped and the row renders as without it. -/
theorem empty_value_skip_witness :
    drawnFor zeroWidth c1Template.height rowBob missingField = none ∧
    renderRow allDraws zeroWidth c1Template [missingField, c1Field] rowBob
      = renderRow allDraws zeroWidth c1Template [c1Field] rowBob :=
  empty_value_skip allDraws zeroWidth c1Template rowBob missingField [] [c1Field]
    (Or.inl rfl)

/-- Claim C9, counterexample: re-uploading a template does not clear the
placed fields. `handlePDFUpload` only calls `setPdfFile` (part_001 lines
39-43), so the field placed before the re-upload survives it — refuting
the claim that a template re-upload also clears all fields. -/
theorem pdf_upload_keeps_fields :
    (handlePDFUpload c9State a4Template).pdfFile = some a4Template ∧
    (handlePDFUpload c9State a4Template).fields = [c1Field] ∧
    [c1Field] ≠ ([] : List Field) :=
  ⟨rfl, rfl, by simp⟩

/-- Claim C9, amended: re-uploading a dataset replaces the rows and the
header set wholesale and clears the selected columns and all placed
fields; re-uploading a template replaces only the stored template file and
leaves every other piece of session state — the placed fields included —
unchanged. -/
theorem upload_replacement (s : EditorState) (tpl : Template) (fileMark : String)
    (parsed : ParsedSheet) :
    (handleExcelUpload s fileMark parsed).excelData = parsed.jsonData ∧
    (handleExcelUpload s fileMark parsed).availableFields = parsed.headers ∧
    (handleExcelUpload s fileMark parsed).selectedFields = [] ∧
    (handleExcelUpload s fileMark parsed).fields = [] ∧
    (handlePDFUpload s tpl).pdfFile = some tpl ∧
    (handlePDFUpload s tpl).fields = s.fields :=
  ⟨rfl, rfl, rfl, rfl, rfl, rfl⟩

theorem stylesRenderEq_fontSizeOf {s t : Option TextStyles} (h : stylesRenderEq s t) :
    fontSizeOf s = fontSizeOf t := by
  cases s <;> cases t <;> simp only [stylesRenderEq] at h
  · rfl
  · obtain ⟨-, h2, -, -⟩ := h
    simp only [fontSizeOf, h2]

theorem stylesRenderEq_alignOf {s t : Option TextStyles} (h : stylesRenderEq s t) :
    alignOf s = alignOf t := by
  cases s <;> cases t <;> simp only [stylesRenderEq] at h
  · rfl
  · obtain ⟨-, -, h3, -⟩ := h
    simp only [alignOf, h3]

theorem stylesRenderEq_resolveFont {s t : Option TextStyles} (h : stylesRenderEq s t) :
    resolveFont s = resolveFont t := by
  cases s <;> cases t <;> simp only [stylesRenderEq] at h
  · rfl
  · obtain ⟨h1, -, -, -⟩ := h
    simp only [resolveFont, h1]

theorem stylesRenderEq_parseColor {s t : Option TextStyles} (h : stylesRenderEq s t) :
    parseColor s = parseColor t := by
  cases s <;> cases t <;> simp only [stylesRenderEq] at h
  · rfl
  · obtain ⟨-, -, -, h4⟩ := h
    simp only [parseColor, h4]

theorem drawnFor_congr (widthOf : StdFont → String → ℚ → ℚ) (height : ℚ) (row : Row)
    {f g : Field} (h : fieldRenderEq f g) :
    drawnFor widthOf height row f = drawnFor widthOf height row g := by
  simp only [fieldRenderEq] at h
  obtain ⟨-, hname, hx, hy, hox, hoy, hst⟩ := h
  simp only [drawnFor, hname, hx, hy, hox, hoy, stylesRenderEq_fontSizeOf hst,
    stylesRenderEq_alignOf hst, stylesRenderEq_resolveFont hst,
    stylesRenderEq_parseColor hst]

theorem renderFields_congr (drawOk : String → Bool) (widthOf : StdFont → String → ℚ → ℚ)
    (height : ℚ) (row : Row) :
    ∀ {fs gs : List Field}, List.Forall₂ fieldRenderEq fs gs →
      renderFields drawOk widthOf height row fs = renderFields drawOk widthOf height row gs := by
  intro fs gs h
  induction h with
  | nil => rfl
  | @cons a b as bs hfg htail ih =>
      have hd := drawnFor_congr widthOf height row hfg
      cases hdb : drawnFor widthOf height row b with
      | none => simp only [renderFields, hd, hdb, ih]
      | some d => simp only [renderFields, hd, hdb, ih]

theorem renderRow_congr (drawOk : String → Bool) (widthOf : StdFont → String → ℚ → ℚ)
    (tpl : Template) (row : Row) {fs gs : List Field}
    (h : List.Forall₂ fieldRenderEq fs gs) :
    renderRow drawOk widthOf tpl fs row = renderRow drawOk widthOf tpl gs row := by
  unfold renderRow
  rw [renderFields_congr drawOk widthOf tpl.height row h]

theorem processRows_congr (drawOk : String → Bool) (widthOf : StdFont → String → ℚ → ℚ)
    (tpl : Template) {fs gs : List Field} (h : List.Forall₂ fieldRenderEq fs gs) :
    ∀ (rows : List Row) (i : ℕ),
      processRows drawOk widthOf tpl fs rows i = processRows drawOk widthOf tpl gs rows i := by
  intro rows
  induction rows with
  | nil => intro i; rfl
  | cons row rest ih =>
      intro i
      have hr := renderRow_congr drawOk widthOf tpl row h
      cases hrg : renderRow drawOk widthOf tpl gs row with
      | error e => simp only [processRows, hr, hrg]
      | ok ds => simp only [processRows, hr, hrg, ih (i + 1)]

/-- Claim C10: the batch output is independent of fontWeight, fontStyle
and textDecoration. For any two field lists that agree pointwise on
everything the renderer reads (identity, column name, position, offsets,
font family, font size, alignment, color) and may differ arbitrarily in
the three toggle properties, the batch outcome — file names and drawn
text options included — is identical. -/
theorem style_independence (drawOk : String → Bool) (widthOf : StdFont → String → ℚ → ℚ)
    (pdfFile : Option Template) (rows : List Row) {fs gs : List Field}
    (h : List.Forall₂ fieldRenderEq fs gs) :
    handleProcessCertificates drawOk widthOf pdfFile rows fs
      = handleProcessCertificates drawOk widthOf pdfFile rows gs := by
  cases pdfFile with
  | none => rfl
  | some tpl =>
      simp only [handleProcessCertificates]
      by_cases hfs : fs = []
      · have hgs : gs = [] := by
          subst hfs
          cases h
          rfl
        rw [if_pos (Or.inr hfs), if_pos (Or.inr hgs)]
      · have hgs : gs ≠ [] := by
          intro hg
          subst hg
          cases h
          exact hfs rfl
        by_cases hrows : rows = []
        · rw [if_pos (Or.inl hrows), if_pos (Or.inl hrows)]
        · rw [if_neg (by simp [hrows, hfs]), if_neg (by simp [hrows, hgs]),
            processRows_congr drawOk widthOf tpl h rows 0]

/-- Claim C10 witness: toggling bold, italic and underline on the scenario
field leaves the batch result unchanged. -/
theorem style_independence_witness :
    handleProcessCertificates allDraws zeroWidth (some c1Template) [rowAlice] [boldField]
      = handleProcessCertificates allDraws zeroWidth (some c1Template) [rowAlice] [plainField] := by
  refine style_independence allDraws zeroWidth (some c1Template) [rowAlice] ?_
  refine List.Forall₂.cons ?_ List.Forall₂.nil
  refine ⟨rfl, rfl, rfl, rfl, rfl, rfl, ?_⟩
  exact ⟨rfl, rfl, rfl, rfl⟩

end CertificateEditor
